import Mathlib

/-!
Verification development for the Defi-Rain optimistic-rollup repository.

The JavaScript / Solidity sources are embedded shallowly:

* `src/utils/merkle.js` (class `MerkleTree`) — hash values are modelled as a
  free term algebra `HVal`: `sha256`, `keccak…` and the sorted pairing are
  injective constructors, i.e. the usual collision-free idealisation of the
  cryptographic hashes.  The JS code sorts sibling digests by their hex
  strings before hashing; the model sorts by a fixed computable total order
  (`hvalLt`) standing in for that digest order.  Every theorem below is
  insensitive to which total order is chosen, except the explicit
  commutation lemma for raw-string leaves, which is proved from the sort.
* `src/core/rollup.js` (class `RollupManager`) — JS values appearing in
  transaction fields are modelled by `JsVal` together with JavaScript's
  truthiness test; `Map` objects keyed by generated ids are modelled as
  insertion-ordered association lists.  The non-deterministic inputs
  (`Date.now()`, `Math.random()` ids) are passed as explicit parameters.
  Method calls return a `JsResult` — final state plus thrown message —
  because mutations made before a JS throw persist; in particular the
  shipped `createBatch` drains the queue and then throws
  `invalid BytesLike value` (`getRoot()` is never BytesLike), and an
  explicitly named idealized pipeline (`createBatchIdeal`, …) models the
  batch flow the code was aiming for.
* `src/contracts/BridgeContract.sol` (contract `RollupContract`) — the
  on-chain batch state machine; a failing `require` reverts, i.e. leaves
  the state unchanged, which the embedding reflects by `Except` results
  plus an `applyOp` wrapper that keeps the previous state on error.
* unnamed sources: `ValidatorManager` and `CrossChainBridge` classes.
-/

set_option maxRecDepth 8000

namespace DefiRain

/-! ## JavaScript values and transactions (rollup.js) -/

/-- Model of a JavaScript value as it can appear in a transaction field:
`undef` stands for a missing property, the other constructors for the
primitive values the code inspects.  (Floating point `NaN` is out of scope.) -/
inductive JsVal where
  | undef
  | nullV
  | str (s : String)
  | num (n : Int)
  | boolV (b : Bool)
deriving DecidableEq, Repr

/-- JavaScript truthiness: `undefined`, `null`, `""`, `0` and `false` are
falsy, everything else is truthy. -/
def JsVal.truthy : JsVal → Bool
  | .undef => false
  | .nullV => false
  | .str s => !(s == "")
  | .num n => !(n == 0)
  | .boolV b => b

/-- Evaluates the JS test `v.length === n`: only a string has a `length`
property, so for every other value the comparison is false. -/
def JsVal.lengthIs (v : JsVal) (n : Nat) : Bool :=
  match v with
  | .str s => s.length == n
  | _ => false

/-- A transaction as submitted to `RollupManager.addTransaction`; each of the
six required properties is a `JsVal`, with `JsVal.undef` meaning the
property is missing. (`from` is a Lean keyword, hence the guillemets.) -/
structure Tx where
  «from» : JsVal
  «to» : JsVal
  value : JsVal
  data : JsVal
  nonce : JsVal
  signature : JsVal
deriving DecidableEq, Repr

/-- A queued transaction: `addTransaction` pushes `{...transaction, id,
timestamp, status: 'pending'}` onto `pendingTransactions`. -/
structure QueuedTx where
  tx : Tx
  id : String
  timestamp : Nat
  status : String
deriving DecidableEq, Repr

/-! ## Hash values -/

/-- Free term algebra of hash values.  `rawStr` is a plain string datum;
`sha256` is `crypto.createHash('sha256')` as used by `MerkleTree.hashLeaf`;
`sha256pair` is the digest of the concatenation of two child digests
(`MerkleTree.hashNodes`, after the sort); `zeroHash` is `ethers.ZeroHash`;
`keccakJson t` is `ethers.keccak256(toUtf8Bytes(JSON.stringify(t)))`;
`keccakConcat` is the chained state root
`keccak256(concat([prev, merkleRoot, toUtf8Bytes(batchId)]))`;
`keccakWithdrawProof` is `CrossChainBridge.generateWithdrawalProof`.
Constructor injectivity is the standard collision-free idealisation. -/
inductive HVal where
  | zeroHash
  | jsNull
  | rawStr (s : String)
  | sha256 (d : HVal)
  | sha256pair (l r : HVal)
  | keccakJson (t : QueuedTx)
  | keccakConcat (prev root : HVal) (batchId : String)
  | keccakWithdrawProof (wid user token : String) (amount : Int) (ts : Nat)
deriving DecidableEq, Repr

/-- Constructor rank, used to order hash values across constructors. -/
def HVal.rank : HVal → Nat
  | .zeroHash => 0
  | .jsNull => 1
  | .rawStr _ => 2
  | .sha256 _ => 3
  | .sha256pair _ _ => 4
  | .keccakJson _ => 5
  | .keccakConcat _ _ _ => 6
  | .keccakWithdrawProof _ _ _ _ _ => 7

/-- Lexicographic strict order on character lists by code point, the way
JavaScript `<` compares strings code unit by code unit. -/
def charListLt : List Char → List Char → Bool
  | [], [] => false
  | [], _ :: _ => true
  | _ :: _, [] => false
  | a :: as, b :: bs =>
    if a < b then true
    else if b < a then false
    else charListLt as bs

/-- JavaScript string comparison `a < b`. -/
def strLt (a b : String) : Bool := charListLt a.data b.data

/-- Computable strict comparison on hash values, standing in for the
lexicographic order on hex digest strings that `hashNodes` uses
(`left < right`).  The digest order is opaque to the caller, so a fixed
deterministic comparison is a faithful stand-in; on the fragment built
from raw string data (the `merkle.js` leaves) it is the honest string
order, and the commutation lemma below is proved there.  On
keccak-commitment leaves the comparison degenerates to a fixed pairing;
no theorem below depends on the pairing chosen in that region. -/
def hvalLt : HVal → HVal → Bool
  | .rawStr a, .rawStr b => strLt a b
  | .sha256 a, .sha256 b => hvalLt a b
  | .sha256pair a b, .sha256pair c d => if a = c then hvalLt b d else hvalLt a c
  | x, y => decide (x.rank < y.rank)

/-! ## MerkleTree (src/utils/merkle.js) -/

/-- `MerkleTree.hashLeaf(data)`: sha256 of the raw data. -/
def hashLeaf (data : String) : HVal := .sha256 (.rawStr data)

/-- `MerkleTree.hashNodes(left, right)`: sorts the pair of digests
(`left < right ? left + right : right + left`) and hashes the
concatenation. -/
def hashNodes (l r : HVal) : HVal :=
  if hvalLt l r then .sha256pair l r else .sha256pair r l

/-- One pass of the level loop in `MerkleTree.buildTree`: nodes are paired
two at a time, and an odd trailing node is paired with itself
(`right = i + 1 < length ? level[i+1] : left`). -/
def pairUp : List HVal → List HVal
  | [] => []
  | [x] => [hashNodes x x]
  | x :: y :: rest => hashNodes x y :: pairUp rest

/-- Each `pairUp` pass produces at most as many nodes as it consumes. -/
theorem pairUp_length_le (l : List HVal) : (pairUp l).length ≤ l.length := by
  match l with
  | [] => simp [pairUp]
  | [x] => simp [pairUp]
  | x :: y :: rest =>
    simp only [pairUp, List.length_cons]
    have := pairUp_length_le rest
    omega

/-- The `while (currentLevel.length > 1)` loop of `buildTree`, producing
the list of levels from the given level up to the singleton root level.
The loop is given as structural recursion on a fuel argument so that it
evaluates in the kernel; `pairUp` at least halves a level of length ≥ 2,
so a fuel of `current.length` (supplied by `growTree`) never runs out. -/
def growTreeFuel : Nat → List HVal → List (List HVal)
  | 0, current => [current]
  | fuel + 1, current =>
    if current.length ≤ 1 then [current]
    else current :: growTreeFuel fuel (pairUp current)

/-- The level loop of `buildTree`, started with sufficient fuel. -/
def growTree (current : List HVal) : List (List HVal) :=
  growTreeFuel current.length current

/-- `MerkleTree.buildTree()`: empty leaves give `[]`, a single leaf gives a
single level, otherwise the level loop runs.  (The JS code returns the bare
leaf hash rather than a one-element level in the single-leaf case; the
embedding uses a one-element level, which yields the same `tree.length`
and the same root value.) -/
def buildTree (leaves : List HVal) : List (List HVal) :=
  if leaves.length = 0 then []
  else if leaves.length = 1 then [leaves]
  else growTree leaves

/-- The root hash of the built tree: the entry of the top level.  (The JS
`this.root = this.tree[this.tree.length - 1]` stores the whole top *level*
for trees with more than one leaf — a type quirk noted in the development;
the embedding takes the hash that level contains.) -/
def rootOf (leaves : List HVal) : Option HVal :=
  ((buildTree leaves).getLast?).bind List.head?

/-- Which side of the current node a proof sibling sits on
(the `position` field of a proof entry in `getProof`). -/
inductive Side where
  | left
  | right
deriving DecidableEq, Repr

/-- One entry of a Merkle proof: `{hash, position}`. -/
structure ProofElem where
  hash : HVal
  position : Side
deriving DecidableEq, Repr

/-- The level walk of `MerkleTree.getProof`: for each level below the root
(`while (currentLevel < this.tree.length - 1)`), if the sibling index is in
range the sibling is recorded — with position `right` when the current
index is even (sibling to the right) — and the index halves; when an odd
trailing node has no sibling (`siblingIndex >= level.length`) **nothing**
is pushed for that level. -/
def proofSteps : List (List HVal) → Nat → List ProofElem
  | [], _ => []
  | lvl :: rest, idx =>
    let isLeft := idx % 2 == 0
    let sib := if isLeft then idx + 1 else idx - 1
    (if sib < lvl.length then
      [⟨lvl.getD sib .zeroHash, if isLeft then .right else .left⟩]
     else []) ++ proofSteps rest (idx / 2)

/-- The `MerkleTree` instance state: hashed leaves plus the built tree. -/
structure MerkleTree where
  leaves : List HVal
  tree : List (List HVal)
deriving DecidableEq, Repr

/-- `new MerkleTree(data)`: hash every datum with `hashLeaf`, build the tree. -/
def MerkleTree.ofData (data : List String) : MerkleTree :=
  let ls := data.map hashLeaf
  ⟨ls, buildTree ls⟩

/-- `MerkleTree.getRoot()` (the hash contained in the stored top level). -/
def MerkleTree.root (t : MerkleTree) : Option HVal :=
  (t.tree.getLast?).bind List.head?

/-- `MerkleTree.getProof(index)`: rejects an out-of-range index, otherwise
walks every level strictly below the root level (`tree.dropLast`). -/
def MerkleTree.getProof (t : MerkleTree) (index : Nat) : Except String (List ProofElem) :=
  if index < t.leaves.length then .ok (proofSteps t.tree.dropLast index)
  else .error "Invalid leaf index"

/-- `MerkleTree.verifyProof(leaf, proof, root)`: folds the proof entries in
order, combining with `hashNodes` on the recorded side, and compares the
result with the root. -/
def verifyProof (leaf : HVal) (proof : List ProofElem) (root : HVal) : Bool :=
  (proof.foldl
    (fun currentHash node =>
      match node.position with
      | .left => hashNodes node.hash currentHash
      | .right => hashNodes currentHash node.hash)
    leaf) == root

/-- Round trip of the spec's §8 property: verify the proof the tree itself
generated for leaf `i` of `data` against the tree's own root; `none` when
the index is invalid or the tree is empty. -/
def verifyOwn (data : List String) (i : Nat) : Option Bool :=
  let t := MerkleTree.ofData data
  match t.getProof i, t.root with
  | .ok p, some r => some (verifyProof (t.leaves.getD i .zeroHash) p r)
  | _, _ => none

/-! ## RollupManager (src/core/rollup.js) -/

/-- A batch record as built by `createBatch` / mutated by
`calculateBatchRoots` and `submitBatchToLayer1`. -/
structure RBatch where
  id : String
  transactions : List QueuedTx
  stateRoot : Option HVal
  merkleRoot : Option HVal
  timestamp : Nat
  status : String
  gasUsed : Nat
  layer1TxHash : Option String
deriving DecidableEq, Repr

/-- The mutable state of a `RollupManager` instance.  `batches` is the
insertion-ordered contents of the `Map` (keyed by the ids the entries
carry); the settlement-layer handles (`provider`, `contract`) carry no
state the embedded operations read. -/
structure RollupManager where
  batches : List RBatch
  pendingTransactions : List QueuedTx
  stateRoot : HVal
  batchCounter : Nat
  batchSize : Nat
deriving DecidableEq, Repr

/-- `verifySignature(transaction)`:
`transaction.signature && transaction.signature.length === 132` — the
first conjunct is JS truthiness, the second is false whenever the value
is not a string of length 132. -/
def verifySignature (t : Tx) : Bool :=
  t.signature.truthy && t.signature.lengthIs 132

/-- `validateTransaction(transaction)`: every required field must be
truthy (`if (!transaction[field]) return false`), then the signature
check must pass. -/
def validateTransaction (t : Tx) : Bool :=
  t.«from».truthy && t.«to».truthy && t.value.truthy &&
  t.data.truthy && t.nonce.truthy && t.signature.truthy &&
  verifySignature t

/-- Per-transaction commitment used by `calculateBatchRoots`: the tree
constructor applies `hashLeaf` to the hex string of
`keccak256(toUtf8Bytes(JSON.stringify(tx)))`; the hex rendering of the
keccak digest is left implicit in the embedding. -/
def txCommitment (t : QueuedTx) : HVal := .sha256 (.keccakJson t)

/-- Merkle root over the per-transaction commitments of a batch. -/
def batchMerkleRoot (txs : List QueuedTx) : Option HVal :=
  rootOf (txs.map txCommitment)

/-- `keccak256(concat([this.stateRoot, batch.merkleRoot,
toUtf8Bytes(batch.id)]))`. -/
def batchStateRoot (prev mroot : HVal) (batchId : String) : HVal :=
  .keccakConcat prev mroot batchId

/-- `generateBatchId()`: `'batch_' + this.batchCounter + '_' + Date.now()`. -/
def generateBatchId (counter now : Nat) : String :=
  "batch_" ++ toString counter ++ "_" ++ toString now

/-- The JavaScript value `merkleTree.getRoot()` actually evaluates to.
`this.root = this.tree[this.tree.length - 1]` stores the whole top
*level*: `null` for an empty tree, the bare sha256 hex digest (64
characters, **no** `0x` prefix, from `digest('hex')`) for a single leaf,
and the top-level **Array** of digests otherwise. -/
inductive JsRootVal where
  | nullV
  | bareHex (h : HVal)
  | level (hs : List HVal)
  | hex0x (h : HVal)
deriving DecidableEq, Repr

/-- `getRoot()` on the tree over `leaves` (see `JsRootVal`).  The
`hex0x` constructor — a `0x`-prefixed digest, the only string form
`ethers` byte helpers accept — is never produced. -/
def getRootJs (leaves : List HVal) : JsRootVal :=
  if leaves.length = 0 then .nullV
  else if leaves.length = 1 then .bareHex (leaves.getD 0 .jsNull)
  else .level ((buildTree leaves).getLast?.getD [])

/-- Whether `ethers.getBytes` (hence `ethers.concat`) accepts the value:
only `Uint8Array`s and `0x`-prefixed hex strings are BytesLike; `null`, a
bare hex digest and a plain Array are all rejected with
`invalid BytesLike value`. -/
def isBytesLike : JsRootVal → Bool
  | .nullV => false
  | .bareHex _ => false
  | .level _ => false
  | .hex0x _ => true

/-- The outcome of a JavaScript method call: the state it leaves behind —
mutations made before a throw persist — and the thrown message, if any. -/
structure JsResult (σ : Type) where
  state : σ
  thrown : Option String
deriving DecidableEq, Repr

/-- `calculateBatchRoots(batch)` as shipped: assigns
`batch.merkleRoot = merkleTree.getRoot()`, then crashes computing
`keccak256(concat([this.stateRoot, batch.merkleRoot, toUtf8Bytes(batch.id)]))`,
because the `getRoot()` value is never BytesLike (a bare hex digest for
one transaction, the top-level Array otherwise, `null` for none).  The
dead success branch records the roots the computation was aiming for. -/
def calculateBatchRoots (prev : HVal) (batch : RBatch) : Except String RBatch :=
  let mrootJs := getRootJs (batch.transactions.map txCommitment)
  if isBytesLike mrootJs then
    .ok { batch with
          merkleRoot := batchMerkleRoot batch.transactions
          stateRoot := some (batchStateRoot prev
            ((batchMerkleRoot batch.transactions).getD .jsNull) batch.id) }
  else .error "invalid BytesLike value"

/-- `submitBatchToLayer1(batch)` (mock settlement submission, which cannot
fail): marks the stored batch `submitted`, records the generated
layer-1 transaction hash `rnd`, and advances the manager's state root to
the batch's state root. -/
def submitBatchToLayer1 (rm : RollupManager) (batch : RBatch) (rnd : String) : RollupManager :=
  let batch' := { batch with status := "submitted", layer1TxHash := some rnd }
  { rm with
    batches := rm.batches.map (fun b => if b.id = batch.id then batch' else b)
    stateRoot := batch'.stateRoot.getD .jsNull }

/-- `createBatch()` as shipped: a no-op on an empty queue; otherwise it
first splices the first `batchSize` transactions out of the queue, and
then `calculateBatchRoots` throws, so the error propagates with the queue
already drained: no batch is stored, `batchCounter` and `stateRoot` are
untouched, and the spliced transactions are lost.  The dead `.ok` branch
continues with the storing, counting and submission the code was aiming
for.  `now` is `Date.now()` and `rnd` the random mock transaction hash. -/
def createBatch (rm : RollupManager) (now : Nat) (rnd : String) : JsResult RollupManager :=
  if rm.pendingTransactions.length = 0 then ⟨rm, none⟩
  else
    let batchTransactions := rm.pendingTransactions.take rm.batchSize
    let rm1 := { rm with pendingTransactions := rm.pendingTransactions.drop rm.batchSize }
    let batchId := generateBatchId rm.batchCounter now
    let batch0 : RBatch :=
      { id := batchId, transactions := batchTransactions, stateRoot := none,
        merkleRoot := none, timestamp := now, status := "pending",
        gasUsed := 0, layer1TxHash := none }
    match calculateBatchRoots rm1.stateRoot batch0 with
    | .error e => ⟨rm1, some e⟩
    | .ok batch1 =>
      let rm2 :=
        { rm1 with
          batches := rm1.batches ++ [batch1]
          batchCounter := rm1.batchCounter + 1 }
      ⟨submitBatchToLayer1 rm2 batch1 rnd, none⟩

/-- `addTransaction(transaction)` as shipped: a transaction failing
`validateTransaction` throws before any mutation; a valid one is pushed
(`{...transaction, id, timestamp, status: 'pending'}`), and when the
queue has reached `batchSize` the failing `createBatch` runs, its throw
propagating to the caller with the push and splice already applied. -/
def addTransaction (rm : RollupManager) (t : Tx) (txId : String) (now : Nat) (rnd : String) :
    JsResult RollupManager :=
  if validateTransaction t then
    let rm1 :=
      { rm with pendingTransactions := rm.pendingTransactions ++ [⟨t, txId, now, "pending"⟩] }
    if rm.batchSize ≤ rm1.pendingTransactions.length then createBatch rm1 now rnd
    else ⟨rm1, none⟩
  else ⟨rm, some "Invalid transaction"⟩

/-- The batch pipeline with the settlement byte handling idealized as
total: `calculateBatchRootsIdeal` is the root computation
`calculateBatchRoots` was aiming for, skipping the `concat` crash.  The
shipped pipeline stores no batch on any input, so every stored-batch
state reachable through the idealized operations includes every one
reachable through the shipped ones; invariants over stored batches proved
for the idealized operations therefore cover the shipped behavior. -/
def calculateBatchRootsIdeal (prev : HVal) (batch : RBatch) : RBatch :=
  let mroot := batchMerkleRoot batch.transactions
  { batch with
    merkleRoot := mroot
    stateRoot := some (batchStateRoot prev (mroot.getD .jsNull) batch.id) }

/-- `createBatch()` under the idealized byte handling (see
`calculateBatchRootsIdeal`): splices the first `batchSize` pending
transactions (FIFO), builds the batch with status `'pending'`, computes
its roots, stores it, increments the counter and submits it to layer 1. -/
def createBatchIdeal (rm : RollupManager) (now : Nat) (rnd : String) : RollupManager :=
  if rm.pendingTransactions.length = 0 then rm
  else
    let batchTransactions := rm.pendingTransactions.take rm.batchSize
    let remaining := rm.pendingTransactions.drop rm.batchSize
    let batchId := generateBatchId rm.batchCounter now
    let batch0 : RBatch :=
      { id := batchId, transactions := batchTransactions, stateRoot := none,
        merkleRoot := none, timestamp := now, status := "pending",
        gasUsed := 0, layer1TxHash := none }
    let batch1 := calculateBatchRootsIdeal rm.stateRoot batch0
    let rm1 :=
      { rm with
        pendingTransactions := remaining
        batches := rm.batches ++ [batch1]
        batchCounter := rm.batchCounter + 1 }
    submitBatchToLayer1 rm1 batch1 rnd

/-- `addTransaction(transaction)` under the idealized byte handling:
rejects a transaction that fails `validateTransaction`, leaving the state
untouched; otherwise pushes the enriched record and, if the queue has
reached `batchSize`, runs `createBatchIdeal`. -/
def addTransactionIdeal (rm : RollupManager) (t : Tx) (txId : String) (now : Nat)
    (rnd : String) : Except String RollupManager :=
  if validateTransaction t then
    let rm1 :=
      { rm with pendingTransactions := rm.pendingTransactions ++ [⟨t, txId, now, "pending"⟩] }
    if rm.batchSize ≤ rm1.pendingTransactions.length then .ok (createBatchIdeal rm1 now rnd)
    else .ok rm1
  else .error "Invalid transaction"

/-- The public mutating operations of `RollupManager`, with all
non-deterministic inputs (ids, clock, random hashes) as parameters. -/
inductive RMOp where
  | add (t : Tx) (txId : String) (now : Nat) (rnd : String)
  | create (now : Nat) (rnd : String)
deriving DecidableEq, Repr

/-- Runs one operation of the idealized pipeline (a rejected transaction
leaves the state as it was).  Stored-batch states reachable this way are
a superset of those reachable through the shipped operations, which store
none (see `calculateBatchRootsIdeal`). -/
def applyRMOp (rm : RollupManager) (op : RMOp) : RollupManager :=
  match op with
  | .add t txId now rnd =>
    match addTransactionIdeal rm t txId now rnd with
    | .ok rm' => rm'
    | .error _ => rm
  | .create now rnd => createBatchIdeal rm now rnd

/-- Runs a sequence of operations. -/
def applyRMOps (rm : RollupManager) (ops : List RMOp) : RollupManager :=
  ops.foldl applyRMOp rm

/-- The state after the constructor plus `loadState()` (which sets the
state root to `ethers.ZeroHash`); `batchSize` comes from configuration. -/
def initialRollup (batchSize : Nat) : RollupManager :=
  { batches := [], pendingTransactions := [], stateRoot := .zeroHash,
    batchCounter := 0, batchSize := batchSize }

/-- A 132-character well-formed mock signature for concrete inputs. -/
def sigEx : String := ⟨List.replicate 132 's'⟩

/-- A transaction that passes `validateTransaction`. -/
def txEx : Tx := ⟨.str "0xsender", .str "0xrecipient", .num 5, .str "0x00", .num 1, .str sigEx⟩

/-! ## Association-list model of JS `Map` objects -/

/-- `Map.get(k)`. -/
def lookupKey {α : Type} (k : String) : List (String × α) → Option α
  | [] => none
  | (k', v) :: rest => if k' = k then some v else lookupKey k rest

/-- `Map.set(k, v)`: updates an existing key in place (preserving insertion
order) or appends a new binding. -/
def setKey {α : Type} (k : String) (v : α) : List (String × α) → List (String × α)
  | [] => [(k, v)]
  | (k', v') :: rest => if k' = k then (k, v) :: rest else (k', v') :: setKey k v rest

/-- `Map.delete(k)`. -/
def eraseKey {α : Type} (k : String) : List (String × α) → List (String × α)
  | [] => []
  | (k', v') :: rest => if k' = k then rest else (k', v') :: eraseKey k rest

/-- Character-list test that `pre` is an initial segment, evaluating like
JavaScript `String.prototype.startsWith`. -/
def beginsWithChars : List Char → List Char → Bool
  | _, [] => true
  | [], _ :: _ => false
  | a :: as, b :: bs => (a == b) && beginsWithChars as bs

/-- JavaScript `s.startsWith(pre)`. -/
def beginsWith (s pre : String) : Bool := beginsWithChars s.data pre.data

/-! ## ValidatorManager (unnamed source, part_002) -/

/-- Performance counters of a validator; `uptime` (a JS float equal to
`successfulBatches / totalBatches * 100`) is kept as an exact rational. -/
structure Performance where
  totalBatches : Nat
  successfulBatches : Nat
  failedBatches : Nat
  uptime : Rat
deriving DecidableEq, Repr

/-- A registered validator record. -/
structure Validator where
  address : String
  publicKey : String
  stake : Int
  registeredAt : Nat
  isActive : Bool
  performance : Performance
deriving DecidableEq, Repr

/-- The state of a `ValidatorManager` instance: three `Map`s (in JS the
`performance` entries alias the `performance` field of the `validators`
entries, which the embedded `updatePerformance` reflects by updating
both) plus the configured minimum stake. -/
structure ValidatorManager where
  validators : List (String × Validator)
  stakes : List (String × Int)
  performance : List (String × Performance)
  minimumStake : Int
deriving DecidableEq, Repr

/-- `validatePublicKey(publicKey)`:
`publicKey && publicKey.length === 130 && publicKey.startsWith('0x')`. -/
def validatePublicKey (pk : String) : Bool :=
  !(pk == "") && pk.length == 130 && beginsWith pk "0x"

/-- `registerValidator(address, publicKey, stake)`: rejects a duplicate
address, an insufficient stake, or a malformed public key; otherwise
stores the new active validator in all three maps.  (The method also
returns the record; the embedding keeps only the state.) -/
def registerValidator (vm : ValidatorManager) (address publicKey : String) (stake : Int)
    (now : Nat) : Except String ValidatorManager :=
  if (lookupKey address vm.validators).isSome then .error "Validator already registered"
  else if stake < vm.minimumStake then .error "Insufficient stake amount"
  else if !validatePublicKey publicKey then .error "Invalid public key format"
  else
    let perf : Performance :=
      { totalBatches := 0, successfulBatches := 0, failedBatches := 0, uptime := 100 }
    let v : Validator :=
      { address := address, publicKey := publicKey, stake := stake,
        registeredAt := now, isActive := true, performance := perf }
    .ok { vm with
          validators := setKey address v vm.validators
          stakes := setKey address stake vm.stakes
          performance := setKey address perf vm.performance }

/-- `unregisterValidator(address)`: fails when unknown; otherwise flips
`isActive` on the aliased record and deletes the address from all three
maps (the net state effect is the deletion). -/
def unregisterValidator (vm : ValidatorManager) (address : String) :
    Except String ValidatorManager :=
  match lookupKey address vm.validators with
  | none => .error "Validator not found"
  | some _ =>
    .ok { vm with
          validators := eraseKey address vm.validators
          stakes := eraseKey address vm.stakes
          performance := eraseKey address vm.performance }

/-- `updateStake(address, newStake)`: fails when the address is unknown or
the new stake is below the minimum; otherwise updates the record and the
stakes map. -/
def updateStake (vm : ValidatorManager) (address : String) (newStake : Int) :
    Except String ValidatorManager :=
  match lookupKey address vm.validators with
  | none => .error "Validator not found"
  | some v =>
    if newStake < vm.minimumStake then .error "Insufficient stake amount"
    else
      .ok { vm with
            validators := setKey address { v with stake := newStake } vm.validators
            stakes := setKey address newStake vm.stakes }

/-- `updatePerformance(address, success)`: silently returns when the
address has no performance entry; otherwise increments the counters and
recomputes `uptime = successfulBatches / totalBatches * 100` (the JS
mutation through the aliased object updates the validator record too). -/
def updatePerformance (vm : ValidatorManager) (address : String) (success : Bool) :
    ValidatorManager :=
  match lookupKey address vm.performance with
  | none => vm
  | some p =>
    let p' : Performance :=
      { totalBatches := p.totalBatches + 1
        successfulBatches := p.successfulBatches + (if success then 1 else 0)
        failedBatches := p.failedBatches + (if success then 0 else 1)
        uptime := ((p.successfulBatches + (if success then 1 else 0) : Nat) : Rat)
                    / ((p.totalBatches + 1 : Nat) : Rat) * 100 }
    { vm with
      performance := setKey address p' vm.performance
      validators :=
        match lookupKey address vm.validators with
        | some v => setKey address { v with performance := p' } vm.validators
        | none => vm.validators }

/-- The mutating registry operations. -/
inductive VMOp where
  | register (address publicKey : String) (stake : Int) (now : Nat)
  | unregister (address : String)
  | setStake (address : String) (newStake : Int)
  | perf (address : String) (success : Bool)
deriving DecidableEq, Repr

/-- Runs one registry operation; a thrown error leaves the state as it was
(every JS mutation happens after all the checks). -/
def applyVMOp (vm : ValidatorManager) (op : VMOp) : ValidatorManager :=
  match op with
  | .register a pk st now =>
    match registerValidator vm a pk st now with
    | .ok vm' => vm'
    | .error _ => vm
  | .unregister a =>
    match unregisterValidator vm a with
    | .ok vm' => vm'
    | .error _ => vm
  | .setStake a st =>
    match updateStake vm a st with
    | .ok vm' => vm'
    | .error _ => vm
  | .perf a s => updatePerformance vm a s

/-- Runs a sequence of registry operations. -/
def applyVMOps (vm : ValidatorManager) (ops : List VMOp) : ValidatorManager :=
  ops.foldl applyVMOp vm

/-! ## CrossChainBridge (unnamed source, part_003) -/

/-- `ethers.parseEther('0.001')` in wei. -/
def minDepositAmount : Int := 10 ^ 15

/-- `ethers.parseEther('1000')` in wei. -/
def maxDepositAmount : Int := 10 ^ 21

/-- `this.withdrawalDelay = 7 * 24 * 60 * 60` (seconds); set once in the
constructor and never written again. -/
def withdrawalDelay : Nat := 7 * 24 * 60 * 60

/-- A withdrawal record; times are in milliseconds (`Date.now()`). -/
structure Withdrawal where
  id : String
  userAddress : String
  tokenAddress : String
  amount : Int
  status : String
  timestamp : Nat
  unlockTime : Nat
  layer2TxHash : Option String
  layer1TxHash : Option String
  proof : Option HVal
deriving DecidableEq, Repr

/-- A bridge observability event; the JS entry holds the (aliased) record,
the embedding keeps its id. -/
structure BridgeEvent where
  type : String
  withdrawalId : String
  timestamp : Nat
deriving DecidableEq, Repr

/-- The state of a `CrossChainBridge` instance.  The deposit table drives
no claim under verification and is omitted; the deposit and withdrawal
machines share no state in the source. -/
structure Bridge where
  withdrawals : List (String × Withdrawal)
  bridgeEvents : List BridgeEvent
deriving DecidableEq, Repr

/-- `addBridgeEvent(type, data)`: appends and keeps only the last 1000
events (`slice(-1000)`). -/
def addBridgeEvent (br : Bridge) (ty wid : String) (now : Nat) : Bridge :=
  let evs := br.bridgeEvents ++ [⟨ty, wid, now⟩]
  { br with bridgeEvents := if 1000 < evs.length then evs.drop (evs.length - 1000) else evs }

/-- `generateWithdrawalProof(withdrawal)`:
`keccak256(toUtf8Bytes(JSON.stringify({withdrawalId, userAddress,
tokenAddress, amount, timestamp})))`. -/
def generateWithdrawalProof (w : Withdrawal) : HVal :=
  .keccakWithdrawProof w.id w.userAddress w.tokenAddress w.amount w.timestamp

/-- Length of the hex rendering of a hash value: keccak digests and
`ethers.ZeroHash` render as `'0x' + 64` hex digits (66 characters),
`crypto` sha256 digests as 64 bare hex digits. -/
def hexLength : HVal → Nat
  | .zeroHash => 66
  | .jsNull => 0
  | .rawStr s => s.length
  | .sha256 _ => 64
  | .sha256pair _ _ => 64
  | .keccakJson _ => 66
  | .keccakConcat _ _ _ => 66
  | .keccakWithdrawProof _ _ _ _ _ => 66

/-- `verifyWithdrawalProof(proof)`: `proof && proof.length === 66` — false
on a missing proof, otherwise a hex-length check. -/
def verifyWithdrawalProof : Option HVal → Bool
  | none => false
  | some p => hexLength p == 66

/-- `burnTokensOnLayer2(withdrawal)` (mock burn, which cannot fail):
records the layer-2 transaction hash `l2tx`, marks the record `burned`,
computes its proof, and emits `withdrawal_initiated`. -/
def burnTokensOnLayer2 (br : Bridge) (w : Withdrawal) (l2tx : String) (now : Nat) : Bridge :=
  let w1 := { w with layer2TxHash := some l2tx, status := "burned" }
  let w2 := { w1 with proof := some (generateWithdrawalProof w1) }
  addBridgeEvent { br with withdrawals := setKey w.id w2 br.withdrawals } "withdrawal_initiated" w.id now

/-- `withdraw(userAddress, tokenAddress, amount)`: rejects an amount below
the minimum; otherwise creates a `pending` record with
`unlockTime = Date.now() + withdrawalDelay * 1000`, stores it, and runs
the burn stage.  `amountWei` is the `parseEther` result, `wid` the
generated id, `now` the clock in ms, `l2tx` the mock transaction hash. -/
def withdraw (br : Bridge) (userAddress tokenAddress : String) (amountWei : Int)
    (wid : String) (now : Nat) (l2tx : String) : Except String Bridge :=
  if amountWei < minDepositAmount then .error "Withdrawal amount too small"
  else
    let w : Withdrawal :=
      { id := wid, userAddress := userAddress, tokenAddress := tokenAddress,
        amount := amountWei, status := "pending", timestamp := now,
        unlockTime := now + withdrawalDelay * 1000,
        layer2TxHash := none, layer1TxHash := none, proof := none }
    let br1 := { br with withdrawals := setKey wid w br.withdrawals }
    .ok (burnTokensOnLayer2 br1 w l2tx now)

/-- `completeWithdrawal(withdrawalId)`: fails with a distinct message when
the id is unknown, the status is not `burned`, the delay has not elapsed,
or the proof fails re-verification; otherwise records the layer-1
settlement hash, marks the record `completed` and emits
`withdrawal_completed`. -/
def completeWithdrawal (br : Bridge) (wid : String) (now : Nat) (l1tx : String) :
    Except String Bridge :=
  match lookupKey wid br.withdrawals with
  | none => .error "Withdrawal not found"
  | some w =>
    if w.status ≠ "burned" then .error "Withdrawal not ready for completion"
    else if now < w.unlockTime then .error "Withdrawal still in delay period"
    else if !verifyWithdrawalProof w.proof then .error "Invalid withdrawal proof"
    else
      let w' := { w with layer1TxHash := some l1tx, status := "completed" }
      .ok (addBridgeEvent { br with withdrawals := setKey wid w' br.withdrawals }
            "withdrawal_completed" wid now)

/-! ## RollupContract (src/contracts/BridgeContract.sol) -/

/-- `MAX_CHALLENGE_PERIOD = 7 days` in seconds. -/
def MAX_CHALLENGE_PERIOD : Nat := 7 * 24 * 60 * 60

/-- `MIN_STAKE = 1 ether` in wei. -/
def MIN_STAKE : Nat := 10 ^ 18

/-- `MAX_BATCH_SIZE = 1000`. -/
def MAX_BATCH_SIZE : Nat := 1000

/-- The on-chain `Batch` struct; `bytes32` roots are modelled as numbers
(`0` being `bytes32(0)`), addresses as strings. -/
structure L1Batch where
  stateRoot : Nat
  merkleRoot : Nat
  timestamp : Nat
  sequencer : String
  isChallenged : Bool
  isFinalized : Bool
deriving DecidableEq, Repr

instance : Inhabited L1Batch := ⟨⟨0, 0, 0, "", false, false⟩⟩

/-- The storage of the `RollupContract`.  `batches` holds
`batches[0] … batches[batchCounter-1]` in order, so `batchCounter` is its
length; `validators` is the set of addresses mapped to `true`. -/
structure RollupContract where
  batches : List L1Batch
  validators : List String
  validatorStakes : List (String × Nat)
  currentStateRoot : Nat
  sequencer : String
  challengePeriod : Nat
  minimumStake : Nat
  maxBatchSize : Nat
  paused : Bool
  owner : String
deriving DecidableEq, Repr

/-- `submitBatch(stateRoot, merkleRoot, batchData)`: only the sequencer,
only when not paused, roots non-zero, data non-empty and within the size
bound; appends a fresh unchallenged, unfinalized batch stamped with
`block.timestamp`. -/
def submitBatch (c : RollupContract) (now : Nat) (sender : String)
    (stateRoot merkleRoot batchDataLen : Nat) : Except String RollupContract :=
  if sender ≠ c.sequencer then .error "Only sequencer can call this function"
  else if c.paused then .error "Pausable: paused"
  else if stateRoot = 0 then .error "Invalid state root"
  else if merkleRoot = 0 then .error "Invalid merkle root"
  else if batchDataLen = 0 then .error "Empty batch data"
  else if c.maxBatchSize * 32 < batchDataLen then .error "Batch too large"
  else .ok { c with batches := c.batches ++ [⟨stateRoot, merkleRoot, now, sender, false, false⟩] }

/-- `challengeBatch(batchIndex, reason)`: only a validator, only a valid
index, only when not paused; the batch must be neither challenged nor
finalized and the challenge period must not have expired
(`block.timestamp <= batch.timestamp + challengePeriod`). -/
def challengeBatch (c : RollupContract) (now : Nat) (sender : String) (idx : Nat) :
    Except String RollupContract :=
  if !(c.validators.contains sender) then .error "Only validator can call this function"
  else if idx < c.batches.length then
    if c.paused then .error "Pausable: paused"
    else
      let b := c.batches.getD idx default
      if b.isChallenged then .error "Batch already challenged"
      else if b.isFinalized then .error "Batch already finalized"
      else if b.timestamp + c.challengePeriod < now then .error "Challenge period expired"
      else .ok { c with batches := c.batches.set idx { b with isChallenged := true } }
  else .error "Invalid batch index"

/-- `finalizeBatch(batchIndex)`: valid index, not paused, not already
finalized, and `block.timestamp > batch.timestamp + challengePeriod`;
adopts the batch's state root as canonical only when the batch was not
challenged, and marks the batch finalized either way. -/
def finalizeBatch (c : RollupContract) (now : Nat) (idx : Nat) :
    Except String RollupContract :=
  if idx < c.batches.length then
    if c.paused then .error "Pausable: paused"
    else
      let b := c.batches.getD idx default
      if b.isFinalized then .error "Batch already finalized"
      else if b.timestamp + c.challengePeriod < now then
        let c1 := if b.isChallenged then c else { c with currentStateRoot := b.stateRoot }
        .ok { c1 with batches := c.batches.set idx { b with isFinalized := true } }
      else .error "Challenge period not expired"
  else .error "Invalid batch index"

/-- `registerValidator()` (payable): not paused, stake at least the
minimum, not already registered. -/
def l1RegisterValidator (c : RollupContract) (sender : String) (value : Nat) :
    Except String RollupContract :=
  if c.paused then .error "Pausable: paused"
  else if value < c.minimumStake then .error "Insufficient stake"
  else if c.validators.contains sender then .error "Already registered"
  else .ok { c with
             validators := c.validators ++ [sender]
             validatorStakes := setKey sender value c.validatorStakes }

/-- `unregisterValidator()`: only a validator, not paused, stake positive;
clears the registration flag and the stake. -/
def l1UnregisterValidator (c : RollupContract) (sender : String) :
    Except String RollupContract :=
  if !(c.validators.contains sender) then .error "Only validator can call this function"
  else if c.paused then .error "Pausable: paused"
  else if (lookupKey sender c.validatorStakes).getD 0 = 0 then .error "No stake to withdraw"
  else .ok { c with
             validators := c.validators.filter (fun a => a ≠ sender)
             validatorStakes := setKey sender 0 c.validatorStakes }

/-- `updateSequencer(newSequencer)` (owner only; `""` models `address(0)`). -/
def updateSequencer (c : RollupContract) (sender a : String) : Except String RollupContract :=
  if sender ≠ c.owner then .error "Ownable: caller is not the owner"
  else if a = "" then .error "Invalid sequencer address"
  else if a = c.sequencer then .error "Same sequencer address"
  else .ok { c with sequencer := a }

/-- `updateChallengePeriod(newChallengePeriod)` (owner only). -/
def updateChallengePeriod (c : RollupContract) (sender : String) (p : Nat) :
    Except String RollupContract :=
  if sender ≠ c.owner then .error "Ownable: caller is not the owner"
  else if MAX_CHALLENGE_PERIOD < p then .error "Challenge period too long"
  else if p = c.challengePeriod then .error "Same challenge period"
  else .ok { c with challengePeriod := p }

/-- `updateMinimumStake(newMinimumStake)` (owner only). -/
def updateMinimumStake (c : RollupContract) (sender : String) (m : Nat) :
    Except String RollupContract :=
  if sender ≠ c.owner then .error "Ownable: caller is not the owner"
  else if m < MIN_STAKE then .error "Minimum stake too low"
  else if m = c.minimumStake then .error "Same minimum stake"
  else .ok { c with minimumStake := m }

/-- `updateMaxBatchSize(newMaxBatchSize)` (owner only). -/
def updateMaxBatchSize (c : RollupContract) (sender : String) (m : Nat) :
    Except String RollupContract :=
  if sender ≠ c.owner then .error "Ownable: caller is not the owner"
  else if MAX_BATCH_SIZE < m then .error "Batch size too large"
  else if m = 0 then .error "Invalid batch size"
  else if m = c.maxBatchSize then .error "Same batch size"
  else .ok { c with maxBatchSize := m }

/-- `pause()` (owner only, `Pausable._pause`). -/
def pauseContract (c : RollupContract) (sender : String) : Except String RollupContract :=
  if sender ≠ c.owner then .error "Ownable: caller is not the owner"
  else if c.paused then .error "Pausable: paused"
  else .ok { c with paused := true }

/-- `unpause()` (owner only, `Pausable._unpause`). -/
def unpauseContract (c : RollupContract) (sender : String) : Except String RollupContract :=
  if sender ≠ c.owner then .error "Ownable: caller is not the owner"
  else if !c.paused then .error "Pausable: not paused"
  else .ok { c with paused := false }

/-- The state-mutating entry points of `RollupContract`
(`emergencyWithdraw` only moves the ETH balance, which is not part of the
modelled storage). -/
inductive L1Op where
  | submit (now : Nat) (sender : String) (stateRoot merkleRoot batchDataLen : Nat)
  | challenge (now : Nat) (sender : String) (idx : Nat)
  | finalize (now : Nat) (idx : Nat)
  | register (sender : String) (value : Nat)
  | unregister (sender : String)
  | setSequencer (sender a : String)
  | setChallengePeriod (sender : String) (p : Nat)
  | setMinimumStake (sender : String) (m : Nat)
  | setMaxBatchSize (sender : String) (m : Nat)
  | pause (sender : String)
  | unpause (sender : String)
deriving DecidableEq, Repr

/-- Runs one transaction; a failed `require` reverts, leaving the storage
unchanged. -/
def applyL1Op (c : RollupContract) (op : L1Op) : RollupContract :=
  let r : Except String RollupContract :=
    match op with
    | .submit now sender sr mr len => submitBatch c now sender sr mr len
    | .challenge now sender idx => challengeBatch c now sender idx
    | .finalize now idx => finalizeBatch c now idx
    | .register sender v => l1RegisterValidator c sender v
    | .unregister sender => l1UnregisterValidator c sender
    | .setSequencer sender a => updateSequencer c sender a
    | .setChallengePeriod sender p => updateChallengePeriod c sender p
    | .setMinimumStake sender m => updateMinimumStake c sender m
    | .setMaxBatchSize sender m => updateMaxBatchSize c sender m
    | .pause sender => pauseContract c sender
    | .unpause sender => unpauseContract c sender
  match r with
  | .ok c' => c'
  | .error _ => c

/-- Runs a sequence of transactions. -/
def applyL1Ops (c : RollupContract) (ops : List L1Op) : RollupContract :=
  ops.foldl applyL1Op c

/-- The five batch statuses of the spec's data model. -/
inductive BatchStatus where
  | pending
  | submitted
  | challenged
  | finalized
  | reverted
deriving DecidableEq, Repr

/-- The spec's status vocabulary read off the contract's two booleans: a
stored batch is `submitted`; a disputed one is `challenged`; finalizing
an unchallenged batch yields `finalized` (its root became canonical),
finalizing a challenged one yields `reverted` (its root was not adopted). -/
def L1Batch.status (b : L1Batch) : BatchStatus :=
  if b.isFinalized then (if b.isChallenged then .reverted else .finalized)
  else if b.isChallenged then .challenged
  else .submitted

/-! ## Order facts for the sibling sort -/

/-- `charListLt` is asymmetric. -/
theorem charListLt_asymm : ∀ (as bs : List Char),
    charListLt as bs = true → charListLt bs as = false := by
  intro as
  induction as with
  | nil =>
    intro bs h
    cases bs with
    | nil => simp [charListLt] at h
    | cons b bs => simp [charListLt]
  | cons a as ih =>
    intro bs h
    cases bs with
    | nil => simp [charListLt] at h
    | cons b bs =>
      simp only [charListLt] at h ⊢
      by_cases hab : a < b
      · have hba : ¬ b < a := lt_asymm hab
        simp [hab, hba]
      · by_cases hba : b < a
        · simp [hab, hba] at h
        · simp only [hab, hba, if_false] at h
          simp [hab, hba, ih bs h]

/-- Two character lists that are each not below the other are equal. -/
theorem charListLt_conn : ∀ (as bs : List Char),
    charListLt as bs = false → charListLt bs as = false → as = bs := by
  intro as
  induction as with
  | nil =>
    intro bs h _
    cases bs with
    | nil => rfl
    | cons b bs => simp [charListLt] at h
  | cons a as ih =>
    intro bs h h'
    cases bs with
    | nil => simp [charListLt] at h'
    | cons b bs =>
      simp only [charListLt] at h h'
      by_cases hab : a < b
      · simp [hab] at h
      · by_cases hba : b < a
        · simp [hba, hab] at h'
        · have hAB : a = b := by
            rcases lt_trichotomy a b with hc | hc | hc
            · exact absurd hc hab
            · exact hc
            · exact absurd hc hba
          simp only [hab, hba, if_false] at h h'
          rw [hAB, ih bs h h']

/-- `strLt` is asymmetric. -/
theorem strLt_asymm (a b : String) : strLt a b = true → strLt b a = false :=
  charListLt_asymm a.data b.data

/-- Two strings that are each not below the other are equal. -/
theorem strLt_conn (a b : String) : strLt a b = false → strLt b a = false → a = b := by
  intro h h'
  have hd : a.data = b.data := charListLt_conn a.data b.data h h'
  cases a; cases b
  simp only at hd
  rw [hd]

/-- On hashed raw-string leaves `hashNodes` is commutative: the pair is
sorted before hashing, so the two orders produce the same digest. -/
theorem hashNodes_leaf_comm (a b : String) :
    hashNodes (hashLeaf a) (hashLeaf b) = hashNodes (hashLeaf b) (hashLeaf a) := by
  have h1 : hvalLt (hashLeaf a) (hashLeaf b) = strLt a b := by simp [hvalLt, hashLeaf]
  have h2 : hvalLt (hashLeaf b) (hashLeaf a) = strLt b a := by simp [hvalLt, hashLeaf]
  cases hab : strLt a b with
  | true =>
    have hba : strLt b a = false := strLt_asymm a b hab
    simp [hashNodes, h1, h2, hab, hba]
  | false =>
    cases hba : strLt b a with
    | true => simp [hashNodes, h1, h2, hab, hba]
    | false =>
      have hEq : a = b := strLt_conn a b hab hba
      rw [hEq]

/-- The tree over exactly two leaves has root `hashNodes l₁ l₂`. -/
theorem rootOf_pair (x y : HVal) : rootOf [x, y] = some (hashNodes x y) := rfl

/-! ## Claim C1 -/

/-- C1: the claimed proof/verify round trip fails on the code.  For an odd
level, `buildTree` pairs the trailing node with itself, but `getProof`
pushes no proof entry for that level (`siblingIndex < level.length` is
false), so `verifyProof` folds to a different digest than the root.
Evaluated over leaves `["a","b","c"]`: indices 0 and 1 round-trip to
`true` as claimed, but the trailing index 2 — the case the claim calls out
explicitly — yields `false`. -/
theorem merkle_selfpair_roundtrip_eval :
    verifyOwn ["a", "b", "c"] 0 = some true ∧
    verifyOwn ["a", "b", "c"] 1 = some true ∧
    verifyOwn ["a", "b", "c"] 2 = some false := by decide

/-! ## Claim C4 -/

/-- C4 (counterexample): `["b","a"]` is a reordering (permutation) of
`["a","b"]` distinct from it, yet building the tree over the two orders
yields the same root, because `hashNodes` sorts the sibling pair before
hashing.  This refutes the claim that any reordering yields a different
merkleRoot. -/
theorem merkle_reorder_same_root_cex :
    (["b", "a"] : List String).Perm ["a", "b"] ∧
    (["b", "a"] : List String) ≠ ["a", "b"] ∧
    rootOf (["b", "a"].map hashLeaf) = rootOf (["a", "b"].map hashLeaf) := by decide

/-- C4 (amended): building the Merkle tree twice from the same ordered
transaction list yields the same merkleRoot, and the same stateRoot given
the same prior root and batch id; but a reordering need **not** change the
merkleRoot — the sibling pairing sorts the pair before hashing, so
swapping the two leaves of a two-leaf tree yields the identical root. -/
theorem merkle_root_determinism_and_swap :
    (∀ (txs txs' : List QueuedTx) (prev : HVal) (bid : String), txs = txs' →
        batchMerkleRoot txs = batchMerkleRoot txs' ∧
        batchStateRoot prev ((batchMerkleRoot txs).getD .jsNull) bid =
          batchStateRoot prev ((batchMerkleRoot txs').getD .jsNull) bid) ∧
    (∀ a b : String, rootOf ([a, b].map hashLeaf) = rootOf ([b, a].map hashLeaf)) := by
  constructor
  · intro txs txs' prev bid h
    subst h
    exact ⟨rfl, rfl⟩
  · intro a b
    simp only [List.map]
    rw [rootOf_pair, rootOf_pair, hashNodes_leaf_comm]

/-- C4 witness: the amended determinism statement applied to a concrete
one-transaction list, together with the concrete two-leaf swap. -/
theorem merkle_root_determinism_and_swap_witness :
    batchMerkleRoot [⟨⟨.str "0xa", .str "0xb", .num 1, .str "0x", .num 1, .str "s"⟩,
        "tx_1", 5, "pending"⟩] =
      batchMerkleRoot [⟨⟨.str "0xa", .str "0xb", .num 1, .str "0x", .num 1, .str "s"⟩,
        "tx_1", 5, "pending"⟩] ∧
    rootOf (["x", "y"].map hashLeaf) = rootOf (["y", "x"].map hashLeaf) :=
  ⟨(merkle_root_determinism_and_swap.1 _ _ .zeroHash "batch_0_1" rfl).1,
   merkle_root_determinism_and_swap.2 "x" "y"⟩

/-! ## Claim C3 -/

/-- `calculateBatchRoots` throws on every input: `getRoot()` never
produces a BytesLike value. -/
theorem calculateBatchRoots_always_errors (prev : HVal) (batch : RBatch) :
    calculateBatchRoots prev batch = .error "invalid BytesLike value" := by
  simp only [calculateBatchRoots]
  have h : isBytesLike (getRootJs (batch.transactions.map txCommitment)) = false := by
    simp only [getRootJs]
    split_ifs <;> rfl
  rw [h]
  simp

/-- On a non-empty queue `createBatch` drains the first `batchSize`
transactions and then throws, leaving everything else untouched. -/
theorem createBatch_nonempty_crashes (rm : RollupManager) (now : Nat) (rnd : String)
    (h : rm.pendingTransactions ≠ []) :
    createBatch rm now rnd =
      ⟨{ rm with pendingTransactions := rm.pendingTransactions.drop rm.batchSize },
        some "invalid BytesLike value"⟩ := by
  have hlen : ¬ rm.pendingTransactions.length = 0 := by
    simpa [List.length_eq_zero] using h
  simp only [createBatch, hlen, if_false, calculateBatchRoots_always_errors]

/-- C3: the claim fails on the code.  The empty-queue no-op holds as
claimed; but on a non-empty queue `createBatch()` splices out the first
`min(batchSize, |queue|)` transactions and then **throws**
`invalid BytesLike value` inside `calculateBatchRoots`, because
`merkleTree.getRoot()` returns the top-level Array (or the bare non-`0x`
hex digest for a single leaf), which `ethers.concat` rejects.  No batch
is ever stored or marked `submitted`, `currentRoot` never advances, and
the drained transactions are lost. -/
theorem createBatch_crash_spec :
    ∀ (rm : RollupManager) (now : Nat) (rnd : String),
      (rm.pendingTransactions = [] → createBatch rm now rnd = ⟨rm, none⟩) ∧
      (rm.pendingTransactions ≠ [] →
        createBatch rm now rnd =
          ⟨{ rm with pendingTransactions := rm.pendingTransactions.drop rm.batchSize },
            some "invalid BytesLike value"⟩) := by
  intro rm now rnd
  exact ⟨fun h => by simp [createBatch, h],
    fun hne => createBatch_nonempty_crashes rm now rnd hne⟩

/-- C3 witness: the no-op on the empty queue and the crash on a concrete
one-transaction queue with `batchSize = 1`, whose net effect is the loss
of the queued transaction (the resulting state is again the initial
one). -/
theorem createBatch_crash_spec_witness :
    createBatch (initialRollup 1) 7 "r" = ⟨initialRollup 1, none⟩ ∧
    createBatch { initialRollup 1 with
        pendingTransactions := [⟨txEx, "t1", 5, "pending"⟩] } 7 "r" =
      ⟨initialRollup 1, some "invalid BytesLike value"⟩ := by
  constructor
  · exact (createBatch_crash_spec (initialRollup 1) 7 "r").1 rfl
  · have h := (createBatch_crash_spec { initialRollup 1 with
        pendingTransactions := [⟨txEx, "t1", 5, "pending"⟩] } 7 "r").2 (by decide)
    rw [h]
    decide

/-! ## Claim C5 -/

/-- C5: the rejection half of the claim holds — `addTransaction(tx)`
throws `Invalid transaction`, with no state change, whenever a required
field is missing (`undefined`) or the signature fails the
well-formedness check — and an accepted transaction that leaves the
queue below `batchSize` is appended at the tail in arrival order.  The
remaining half fails on the code: an accepted transaction that fills the
queue to `batchSize` triggers `createBatch`, which splices the queue and
throws `invalid BytesLike value`, so the appended transactions are
drained and lost instead of remaining queued or being batched. -/
theorem addTransaction_validation_spec :
    ∀ (rm : RollupManager) (t : Tx) (txId : String) (now : Nat) (rnd : String),
      ((t.«from» = .undef ∨ t.«to» = .undef ∨ t.value = .undef ∨ t.data = .undef ∨
        t.nonce = .undef ∨ t.signature = .undef ∨ verifySignature t = false) →
        addTransaction rm t txId now rnd = ⟨rm, some "Invalid transaction"⟩) ∧
      (validateTransaction t = true → rm.pendingTransactions.length + 1 < rm.batchSize →
        addTransaction rm t txId now rnd =
          ⟨{ rm with pendingTransactions :=
              rm.pendingTransactions ++ [⟨t, txId, now, "pending"⟩] }, none⟩) ∧
      (validateTransaction t = true → rm.batchSize ≤ rm.pendingTransactions.length + 1 →
        addTransaction rm t txId now rnd =
          ⟨{ rm with pendingTransactions :=
              ((rm.pendingTransactions ++ [(⟨t, txId, now, "pending"⟩ : QueuedTx)]).drop
                rm.batchSize) },
            some "invalid BytesLike value"⟩) := by
  intro rm t txId now rnd
  refine ⟨?_, ?_, ?_⟩
  · intro h
    have hv : validateTransaction t = false := by
      rcases h with h | h | h | h | h | h | h <;>
        simp [validateTransaction, h, JsVal.truthy]
    simp [addTransaction, hv]
  · intro hv hlt
    have hlen : ¬ rm.batchSize ≤ (rm.pendingTransactions ++
        [(⟨t, txId, now, "pending"⟩ : QueuedTx)]).length := by
      simp only [List.length_append, List.length_cons, List.length_nil]
      omega
    simp only [addTransaction, hv, if_true]
    rw [if_neg hlen]
  · intro hv hbs
    have hlen : rm.batchSize ≤ (rm.pendingTransactions ++
        [(⟨t, txId, now, "pending"⟩ : QueuedTx)]).length := by
      simpa using hbs
    simp only [addTransaction, hv, if_true]
    rw [if_pos hlen]
    exact createBatch_nonempty_crashes
      { rm with pendingTransactions :=
          rm.pendingTransactions ++ [⟨t, txId, now, "pending"⟩] } now rnd (by simp)

/-- C5 witness: a transaction with a missing `to` field is rejected with
the state unchanged, and the valid `txEx` is appended to the empty queue
when `batchSize` is 10. -/
theorem addTransaction_validation_spec_witness :
    addTransaction (initialRollup 10) ⟨.str "0xa", .undef, .num 1, .str "0x", .num 1,
        .str sigEx⟩ "t0" 3 "r0" = ⟨initialRollup 10, some "Invalid transaction"⟩ ∧
    addTransaction (initialRollup 10) txEx "t1" 5 "r1" =
      ⟨{ initialRollup 10 with
          pendingTransactions := [⟨txEx, "t1", 5, "pending"⟩] }, none⟩ := by
  constructor
  · exact (addTransaction_validation_spec (initialRollup 10)
      ⟨.str "0xa", .undef, .num 1, .str "0x", .num 1, .str sigEx⟩ "t0" 3 "r0").1 (by simp)
  · have h := (addTransaction_validation_spec (initialRollup 10) txEx "t1" 5 "r1").2.1
      (by decide) (by decide)
    simpa using h

/-! ## Claim C10 -/

/-- C10: `validateTransaction` tests field presence by truthiness
(`if (!transaction[field])`), so a transaction whose required field is
present but falsy — in particular `value = 0` or `nonce = 0`, and `0` is
falsy — is rejected by `addTransaction` exactly like a missing one. -/
theorem addTransaction_rejects_falsy_fields :
    (∀ (rm : RollupManager) (t : Tx) (txId : String) (now : Nat) (rnd : String),
      (t.«from».truthy = false ∨ t.«to».truthy = false ∨ t.value.truthy = false ∨
       t.data.truthy = false ∨ t.nonce.truthy = false ∨ t.signature.truthy = false) →
      addTransaction rm t txId now rnd = ⟨rm, some "Invalid transaction"⟩) ∧
    (JsVal.num 0).truthy = false := by
  refine ⟨?_, rfl⟩
  intro rm t txId now rnd h
  have hv : validateTransaction t = false := by
    rcases h with h | h | h | h | h | h <;>
      simp [validateTransaction, verifySignature, h]
  simp [addTransaction, hv]

/-- C10 witness: a transaction with all six fields present but
`value = 0` is rejected with the state unchanged. -/
theorem addTransaction_rejects_falsy_fields_witness :
    addTransaction (initialRollup 10) ⟨.str "0xa", .str "0xb", .num 0, .str "0x",
        .num 1, .str sigEx⟩ "t0" 3 "r0" = ⟨initialRollup 10, some "Invalid transaction"⟩ :=
  (addTransaction_rejects_falsy_fields.1 (initialRollup 10)
    ⟨.str "0xa", .str "0xb", .num 0, .str "0x", .num 1, .str sigEx⟩ "t0" 3 "r0"
    (by simp [JsVal.truthy]))

/-! ## Claim C8 -/

/-- Every batch `createBatchIdeal` leaves stored carries status
`"submitted"`, provided the already-stored ones do: the freshly built
batch is submitted by `submitBatchToLayer1`, and the id-keyed rewrite
only ever substitutes that submitted batch. -/
theorem createBatchIdeal_keeps_submitted (rm : RollupManager)
    (h : ∀ b ∈ rm.batches, b.status = "submitted") (now : Nat) (rnd : String) :
    ∀ b ∈ (createBatchIdeal rm now rnd).batches, b.status = "submitted" := by
  intro b hb
  by_cases hp : rm.pendingTransactions.length = 0
  · simp only [createBatchIdeal, hp, if_true] at hb
    exact h b hb
  · simp only [createBatchIdeal, hp, if_false, submitBatchToLayer1,
      calculateBatchRootsIdeal] at hb
    rw [List.mem_map] at hb
    obtain ⟨a, ha, rfl⟩ := hb
    by_cases hid : a.id = generateBatchId rm.batchCounter now
    · simp [hid]
    · rw [List.mem_append] at ha
      rcases ha with ha | ha
      · simp only [if_neg hid]
        exact h a ha
      · rw [List.mem_singleton] at ha
        subst ha
        simp at hid

/-- One coordinator operation preserves the all-batches-submitted
invariant. -/
theorem applyRMOp_keeps_submitted (rm : RollupManager)
    (h : ∀ b ∈ rm.batches, b.status = "submitted") (op : RMOp) :
    ∀ b ∈ (applyRMOp rm op).batches, b.status = "submitted" := by
  cases op with
  | create now rnd => exact createBatchIdeal_keeps_submitted rm h now rnd
  | add t txId now rnd =>
    simp only [applyRMOp, addTransactionIdeal]
    by_cases hv : validateTransaction t = true
    · simp only [hv, if_true]
      by_cases hlen : rm.batchSize ≤
          (rm.pendingTransactions ++ [(⟨t, txId, now, "pending"⟩ : QueuedTx)]).length
      · rw [if_pos hlen]
        exact createBatchIdeal_keeps_submitted
          { rm with pendingTransactions :=
              rm.pendingTransactions ++ [⟨t, txId, now, "pending"⟩] }
          (fun b hb => h b hb) now rnd
      · rw [if_neg hlen]
        exact h
    · simp only [Bool.not_eq_true] at hv
      simp only [hv, Bool.false_eq_true, if_false]
      exact h

/-- A whole operation sequence preserves the invariant. -/
theorem applyRMOps_keeps_submitted : ∀ (ops : List RMOp) (rm : RollupManager),
    (∀ b ∈ rm.batches, b.status = "submitted") →
    ∀ b ∈ (applyRMOps rm ops).batches, b.status = "submitted" := by
  intro ops
  induction ops with
  | nil =>
    intro rm h
    simpa [applyRMOps] using h
  | cons op rest ih =>
    intro rm h
    simpa [applyRMOps] using ih (applyRMOp rm op) (applyRMOp_keeps_submitted rm h op)

/-- C8: after any reachable sequence of coordinator operations from the
initial state, every stored batch's status is one of the five values of
the spec's data model — in fact it is always `"submitted"`, and the
`"failed"` assignment in the `submitBatchToLayer1` catch-branch is
unreachable because the mocked settlement submission cannot throw. -/
theorem rollup_batch_status_in_five :
    ∀ (batchSize : Nat) (ops : List RMOp) (b : RBatch),
      b ∈ (applyRMOps (initialRollup batchSize) ops).batches →
      b.status ∈ (["pending", "submitted", "challenged", "finalized", "reverted"] :
        List String) := by
  intro bs ops b hb
  have hs := applyRMOps_keeps_submitted ops (initialRollup bs) (by simp [initialRollup]) b hb
  simp [hs]

/-- C8 witness: a concrete accepted transaction with `batchSize = 1`
produces a stored batch, and its status is among the five. -/
theorem rollup_batch_status_in_five_witness :
    ((applyRMOps (initialRollup 1) [.add txEx "t1" 5 "r1"]).batches.getD 0
        ⟨"", [], none, none, 0, "", 0, none⟩).status ∈
      (["pending", "submitted", "challenged", "finalized", "reverted"] : List String) :=
  rollup_batch_status_in_five 1 [.add txEx "t1" 5 "r1"] _ (by decide)

/-! ## Claim C9 -/

/-- Every entry of `setKey k v l` is the new binding or an old entry. -/
theorem mem_setKey {α : Type} (k : String) (v : α) :
    ∀ (l : List (String × α)) (p : String × α), p ∈ setKey k v l → p = (k, v) ∨ p ∈ l := by
  intro l
  induction l with
  | nil =>
    intro p hp
    simp only [setKey, List.mem_singleton] at hp
    exact Or.inl hp
  | cons x xs ih =>
    intro p hp
    by_cases hk : x.1 = k
    · simp only [setKey, if_pos hk, List.mem_cons] at hp
      rcases hp with hp | hp
      · exact Or.inl hp
      · exact Or.inr (List.mem_cons_of_mem x hp)
    · simp only [setKey, if_neg hk, List.mem_cons] at hp
      rcases hp with hp | hp
      · exact Or.inr (by simp [hp])
      · rcases ih p hp with hp' | hp'
        · exact Or.inl hp'
        · exact Or.inr (List.mem_cons_of_mem x hp')

/-- `eraseKey` only removes entries. -/
theorem mem_eraseKey {α : Type} (k : String) :
    ∀ (l : List (String × α)) (p : String × α), p ∈ eraseKey k l → p ∈ l := by
  intro l
  induction l with
  | nil =>
    intro p hp
    simp [eraseKey] at hp
  | cons x xs ih =>
    intro p hp
    by_cases hk : x.1 = k
    · simp only [eraseKey, if_pos hk] at hp
      exact List.mem_cons_of_mem x hp
    · simp only [eraseKey, if_neg hk, List.mem_cons] at hp
      rcases hp with hp | hp
      · simp [hp]
      · exact List.mem_cons_of_mem x (ih p hp)

/-- A successful lookup returns a stored binding. -/
theorem lookupKey_mem {α : Type} (k : String) :
    ∀ (l : List (String × α)) (v : α), lookupKey k l = some v → (k, v) ∈ l := by
  intro l
  induction l with
  | nil =>
    intro v hv
    simp [lookupKey] at hv
  | cons x xs ih =>
    intro v hv
    by_cases hk : x.1 = k
    · simp only [lookupKey, if_pos hk, Option.some.injEq] at hv
      have hx : x = (k, v) := by
        cases x
        simp only at hk hv
        rw [hk, hv]
      rw [← hx]
      exact List.mem_cons_self x xs
    · simp only [lookupKey, if_neg hk] at hv
      exact List.mem_cons_of_mem x (ih v hv)

/-- The spec's registry invariant: every active stored validator has
stake at least the configured minimum. -/
def StakeInvariant (vm : ValidatorManager) : Prop :=
  ∀ p ∈ vm.validators, (p : String × Validator).2.isActive = true →
    vm.minimumStake ≤ p.2.stake

/-- One registry operation preserves the stake invariant. -/
theorem applyVMOp_keeps_stake (vm : ValidatorManager) (h : StakeInvariant vm) (op : VMOp) :
    StakeInvariant (applyVMOp vm op) := by
  cases op with
  | register a pk st now =>
    simp only [applyVMOp, registerValidator]
    by_cases h1 : (lookupKey a vm.validators).isSome
    · simp [h1]
      exact h
    · by_cases h2 : st < vm.minimumStake
      · simp [h1, h2]
        exact h
      · by_cases h3 : validatePublicKey pk
        · simp only [h1, h2, h3, Bool.not_true, if_false, if_true, Bool.false_eq_true]
          intro p hp hact
          rcases mem_setKey a _ vm.validators p hp with hp' | hp'
          · rw [hp']
            simpa using le_of_not_lt h2
          · exact h p hp' hact
        · simp [h1, h2, h3]
          exact h
  | unregister a =>
    simp only [applyVMOp, unregisterValidator]
    cases hl : lookupKey a vm.validators with
    | none =>
      simp only []
      exact h
    | some v =>
      simp only []
      intro p hp hact
      exact h p (mem_eraseKey a vm.validators p hp) hact
  | setStake a st =>
    simp only [applyVMOp, updateStake]
    cases hl : lookupKey a vm.validators with
    | none =>
      simp only []
      exact h
    | some v =>
      by_cases h2 : st < vm.minimumStake
      · simp only [if_pos h2]
        exact h
      · simp only [if_neg h2]
        intro p hp hact
        rcases mem_setKey a _ vm.validators p hp with hp' | hp'
        · rw [hp']
          simpa using le_of_not_lt h2
        · exact h p hp' hact
  | perf a s =>
    simp only [applyVMOp, updatePerformance]
    cases hp : lookupKey a vm.performance with
    | none => exact h
    | some p =>
      simp only []
      cases hv : lookupKey a vm.validators with
      | none =>
        simp only []
        exact h
      | some v =>
        simp only []
        intro q hq hact
        rcases mem_setKey a _ vm.validators q hq with hq' | hq'
        · rw [hq'] at hact ⊢
          exact h (a, v) (lookupKey_mem a vm.validators v hv) hact
        · exact h q hq' hact

/-- A whole operation sequence preserves the stake invariant. -/
theorem applyVMOps_keeps_stake : ∀ (ops : List VMOp) (vm : ValidatorManager),
    StakeInvariant vm → StakeInvariant (applyVMOps vm ops) := by
  intro ops
  induction ops with
  | nil =>
    intro vm h
    simpa [applyVMOps] using h
  | cons op rest ih =>
    intro vm h
    simpa [applyVMOps] using ih (applyVMOp vm op) (applyVMOp_keeps_stake vm h op)

/-- C9: starting from any registry satisfying the invariant, every active
registered validator keeps stake ≥ minimumStake after every sequence of
registry operations; `registerValidator` with a stake below the minimum
fails and changes nothing, and so does `updateStake` with a new stake
below the minimum. -/
theorem validator_stake_invariant_spec :
    ∀ vm : ValidatorManager, StakeInvariant vm →
      (∀ ops : List VMOp, StakeInvariant (applyVMOps vm ops)) ∧
      (∀ (a pk : String) (st : Int) (now : Nat), st < vm.minimumStake →
        (∃ e, registerValidator vm a pk st now = .error e) ∧
        applyVMOp vm (.register a pk st now) = vm) ∧
      (∀ (a : String) (st : Int), st < vm.minimumStake →
        (∃ e, updateStake vm a st = .error e) ∧
        applyVMOp vm (.setStake a st) = vm) := by
  intro vm h
  refine ⟨fun ops => applyVMOps_keeps_stake ops vm h, ?_, ?_⟩
  · intro a pk st now hst
    by_cases h1 : (lookupKey a vm.validators).isSome
    · exact ⟨⟨"Validator already registered", by simp [registerValidator, h1]⟩,
        by simp [applyVMOp, registerValidator, h1]⟩
    · exact ⟨⟨"Insufficient stake amount", by simp [registerValidator, h1, hst]⟩,
        by simp [applyVMOp, registerValidator, h1, hst]⟩
  · intro a st hst
    cases hl : lookupKey a vm.validators with
    | none =>
      exact ⟨⟨"Validator not found", by simp [updateStake, hl]⟩,
        by simp [applyVMOp, updateStake, hl]⟩
    | some v =>
      exact ⟨⟨"Insufficient stake amount", by simp [updateStake, hl, hst]⟩,
        by simp [applyVMOp, updateStake, hl, hst]⟩

/-- A well-formed 130-character public key for concrete witnesses. -/
def pkEx : String := ⟨'0' :: 'x' :: List.replicate 128 'k'⟩

/-- C9 witness: from the empty registry with minimum stake 1000, a valid
registration of 2000 followed by a rejected stake update keeps the
invariant, and a below-minimum registration leaves the registry
unchanged. -/
theorem validator_stake_invariant_spec_witness :
    StakeInvariant (applyVMOps ⟨[], [], [], 1000⟩
      [.register "0xv" pkEx 2000 1, .setStake "0xv" 5]) ∧
    applyVMOp ⟨[], [], [], 1000⟩ (.register "0xw" pkEx 500 1) = ⟨[], [], [], 1000⟩ := by
  have h := validator_stake_invariant_spec ⟨[], [], [], 1000⟩ (by simp [StakeInvariant])
  exact ⟨h.1 _, (h.2.1 "0xw" pkEx 500 1 (by decide)).2⟩

/-! ## Claim C2 -/

/-- Core index/flag-preservation step: if the new batch list is the old
one, the old one extended at the tail, or the old one with one entry
replaced by an update that keeps true flags true, then the index stays
valid and true flags stay true at every valid index. -/
theorem flags_mono_core (c : RollupContract) (idx : Nat) (h : idx < c.batches.length)
    (batches' : List L1Batch)
    (hcase : batches' = c.batches ∨ (∃ x, batches' = c.batches ++ [x]) ∨
      (∃ i upd, i < c.batches.length ∧ batches' = c.batches.set i upd ∧
        ((c.batches.getD i default).isChallenged = true → upd.isChallenged = true) ∧
        ((c.batches.getD i default).isFinalized = true → upd.isFinalized = true))) :
    idx < batches'.length ∧
    ((c.batches.getD idx default).isChallenged = true →
      (batches'.getD idx default).isChallenged = true) ∧
    ((c.batches.getD idx default).isFinalized = true →
      (batches'.getD idx default).isFinalized = true) := by
  rcases hcase with hb | ⟨x, hb⟩ | ⟨i, upd, hi, hb, hchal, hfin⟩
  · rw [hb]
    exact ⟨h, fun hc => hc, fun hf => hf⟩
  · rw [hb]
    refine ⟨by simp; omega, ?_, ?_⟩ <;>
      rw [List.getD_append _ _ _ _ h] <;> exact fun hx => hx
  · subst hb
    refine ⟨by simpa using h, ?_, ?_⟩ <;>
    · by_cases hij : i = idx
      · subst hij
        have hv : (c.batches.set i upd).getD i default = upd := by
          rw [List.getD_eq_getElem _ _ (by simpa using hi), List.getElem_set_self]
        rw [hv]
        first
          | exact hchal
          | exact hfin
      · have hv : (c.batches.set i upd).getD idx default = c.batches.getD idx default := by
          rw [List.getD_eq_getElem?_getD, List.getElem?_set_ne hij,
            ← List.getD_eq_getElem?_getD]
        rw [hv]
        exact fun hx => hx

/-- Shape of a successful `submitBatch`: the new batch list is the old one
with the fresh batch appended. -/
theorem submitBatch_ok_shape {c c' : RollupContract} {now : Nat} {sender : String}
    {sr mr len : Nat} (h : submitBatch c now sender sr mr len = .ok c') :
    c'.batches = c.batches ++ [⟨sr, mr, now, sender, false, false⟩] := by
  unfold submitBatch at h
  split_ifs at h <;> cases h <;> rfl

/-- Shape of a successful `challengeBatch`: the index is valid, the batch
was unchallenged, and only its `isChallenged` flag is set. -/
theorem challengeBatch_ok_shape {c c' : RollupContract} {now : Nat} {sender : String}
    {i : Nat} (h : challengeBatch c now sender i = .ok c') :
    i < c.batches.length ∧
    (c.batches.getD i default).isChallenged = false ∧
    c' = { c with batches := (c.batches.set i
      { c.batches.getD i default with isChallenged := true }) } := by
  simp only [challengeBatch] at h
  by_cases h1 : (!(c.validators.contains sender)) = true
  · rw [if_pos h1] at h
    cases h
  · rw [if_neg h1] at h
    by_cases h2 : i < c.batches.length
    · rw [if_pos h2] at h
      by_cases h3 : c.paused = true
      · rw [if_pos h3] at h
        cases h
      · rw [if_neg h3] at h
        by_cases h4 : (c.batches.getD i default).isChallenged = true
        · rw [if_pos h4] at h
          cases h
        · rw [if_neg h4] at h
          by_cases h5 : (c.batches.getD i default).isFinalized = true
          · rw [if_pos h5] at h
            cases h
          · rw [if_neg h5] at h
            by_cases h6 : (c.batches.getD i default).timestamp + c.challengePeriod < now
            · rw [if_pos h6] at h
              cases h
            · rw [if_neg h6] at h
              cases h
              refine ⟨h2, ?_, rfl⟩
              simp only [Bool.not_eq_true] at h4
              exact h4
    · rw [if_neg h2] at h
      cases h

/-- Shape of a successful `finalizeBatch`: the index is valid, the batch
was not yet finalized, the window had elapsed, its `isFinalized` flag is
set, and the canonical root is adopted exactly when it was unchallenged. -/
theorem finalizeBatch_ok_shape {c c' : RollupContract} {now idx : Nat}
    (h : finalizeBatch c now idx = .ok c') :
    idx < c.batches.length ∧
    (c.batches.getD idx default).isFinalized = false ∧
    (c.batches.getD idx default).timestamp + c.challengePeriod < now ∧
    c'.batches = c.batches.set idx
      { c.batches.getD idx default with isFinalized := true } ∧
    c'.currentStateRoot = (if (c.batches.getD idx default).isChallenged then
      c.currentStateRoot else (c.batches.getD idx default).stateRoot) := by
  simp only [finalizeBatch] at h
  by_cases h1 : idx < c.batches.length
  · rw [if_pos h1] at h
    by_cases h2 : c.paused = true
    · rw [if_pos h2] at h
      cases h
    · rw [if_neg h2] at h
      by_cases h3 : (c.batches.getD idx default).isFinalized = true
      · rw [if_pos h3] at h
        cases h
      · rw [if_neg h3] at h
        by_cases h4 : (c.batches.getD idx default).timestamp + c.challengePeriod < now
        · rw [if_pos h4] at h
          cases h
          refine ⟨h1, ?_, h4, rfl, ?_⟩
          · simp only [Bool.not_eq_true] at h3
            exact h3
          · by_cases h5 : (c.batches.getD idx default).isChallenged = true
            · rw [if_pos h5, if_pos h5]
            · rw [if_neg h5, if_neg h5]
        · rw [if_neg h4] at h
          cases h
  · rw [if_neg h1] at h
    cases h

/-- A successful admin transaction never touches the batch list. -/
theorem l1RegisterValidator_ok_batches {c c' : RollupContract} {sender : String} {v : Nat}
    (h : l1RegisterValidator c sender v = .ok c') : c'.batches = c.batches := by
  unfold l1RegisterValidator at h
  split_ifs at h <;> cases h <;> rfl

/-- A successful unregistration never touches the batch list. -/
theorem l1UnregisterValidator_ok_batches {c c' : RollupContract} {sender : String}
    (h : l1UnregisterValidator c sender = .ok c') : c'.batches = c.batches := by
  unfold l1UnregisterValidator at h
  split_ifs at h <;> cases h <;> rfl

/-- A successful sequencer update never touches the batch list. -/
theorem updateSequencer_ok_batches {c c' : RollupContract} {sender a : String}
    (h : updateSequencer c sender a = .ok c') : c'.batches = c.batches := by
  unfold updateSequencer at h
  split_ifs at h <;> cases h <;> rfl

/-- A successful challenge-period update never touches the batch list. -/
theorem updateChallengePeriod_ok_batches {c c' : RollupContract} {sender : String} {p : Nat}
    (h : updateChallengePeriod c sender p = .ok c') : c'.batches = c.batches := by
  unfold updateChallengePeriod at h
  split_ifs at h <;> cases h <;> rfl

/-- A successful minimum-stake update never touches the batch list. -/
theorem updateMinimumStake_ok_batches {c c' : RollupContract} {sender : String} {m : Nat}
    (h : updateMinimumStake c sender m = .ok c') : c'.batches = c.batches := by
  unfold updateMinimumStake at h
  split_ifs at h <;> cases h <;> rfl

/-- A successful batch-size update never touches the batch list. -/
theorem updateMaxBatchSize_ok_batches {c c' : RollupContract} {sender : String} {m : Nat}
    (h : updateMaxBatchSize c sender m = .ok c') : c'.batches = c.batches := by
  unfold updateMaxBatchSize at h
  split_ifs at h <;> cases h <;> rfl

/-- Pausing never touches the batch list. -/
theorem pauseContract_ok_batches {c c' : RollupContract} {sender : String}
    (h : pauseContract c sender = .ok c') : c'.batches = c.batches := by
  unfold pauseContract at h
  split_ifs at h <;> cases h <;> rfl

/-- Unpausing never touches the batch list. -/
theorem unpauseContract_ok_batches {c c' : RollupContract} {sender : String}
    (h : unpauseContract c sender = .ok c') : c'.batches = c.batches := by
  unfold unpauseContract at h
  split_ifs at h <;> cases h <;> rfl

/-- One contract transaction keeps a valid batch index valid and never
clears the `isChallenged` or `isFinalized` flag of a stored batch. -/
theorem applyL1Op_flags_mono (c : RollupContract) (op : L1Op) (idx : Nat)
    (h : idx < c.batches.length) :
    idx < (applyL1Op c op).batches.length ∧
    ((c.batches.getD idx default).isChallenged = true →
      ((applyL1Op c op).batches.getD idx default).isChallenged = true) ∧
    ((c.batches.getD idx default).isFinalized = true →
      ((applyL1Op c op).batches.getD idx default).isFinalized = true) := by
  refine flags_mono_core c idx h _ ?_
  cases op with
  | submit now sender sr mr len =>
    cases hr : submitBatch c now sender sr mr len with
    | error e => simp [applyL1Op, hr]
    | ok c1 =>
      have hb : (applyL1Op c (.submit now sender sr mr len)).batches = c1.batches := by
        simp [applyL1Op, hr]
      rw [hb, submitBatch_ok_shape hr]
      exact Or.inr (Or.inl ⟨_, rfl⟩)
  | challenge now sender i =>
    cases hr : challengeBatch c now sender i with
    | error e => simp [applyL1Op, hr]
    | ok c1 =>
      obtain ⟨hi, _, rfl⟩ := challengeBatch_ok_shape hr
      have hb : (applyL1Op c (.challenge now sender i)).batches =
          c.batches.set i { c.batches.getD i default with isChallenged := true } := by
        simp [applyL1Op, hr]
      rw [hb]
      exact Or.inr (Or.inr ⟨i, _, hi, rfl, fun _ => rfl, fun hf => hf⟩)
  | finalize now i =>
    cases hr : finalizeBatch c now i with
    | error e => simp [applyL1Op, hr]
    | ok c1 =>
      obtain ⟨hi, _, _, hb1, _⟩ := finalizeBatch_ok_shape hr
      have hb : (applyL1Op c (.finalize now i)).batches = c1.batches := by
        simp [applyL1Op, hr]
      rw [hb, hb1]
      exact Or.inr (Or.inr ⟨i, _, hi, rfl, fun hc => hc, fun _ => rfl⟩)
  | register sender v =>
    cases hr : l1RegisterValidator c sender v with
    | error e => simp [applyL1Op, hr]
    | ok c1 => simp [applyL1Op, hr, l1RegisterValidator_ok_batches hr]
  | unregister sender =>
    cases hr : l1UnregisterValidator c sender with
    | error e => simp [applyL1Op, hr]
    | ok c1 => simp [applyL1Op, hr, l1UnregisterValidator_ok_batches hr]
  | setSequencer sender a =>
    cases hr : updateSequencer c sender a with
    | error e => simp [applyL1Op, hr]
    | ok c1 => simp [applyL1Op, hr, updateSequencer_ok_batches hr]
  | setChallengePeriod sender p =>
    cases hr : updateChallengePeriod c sender p with
    | error e => simp [applyL1Op, hr]
    | ok c1 => simp [applyL1Op, hr, updateChallengePeriod_ok_batches hr]
  | setMinimumStake sender m =>
    cases hr : updateMinimumStake c sender m with
    | error e => simp [applyL1Op, hr]
    | ok c1 => simp [applyL1Op, hr, updateMinimumStake_ok_batches hr]
  | setMaxBatchSize sender m =>
    cases hr : updateMaxBatchSize c sender m with
    | error e => simp [applyL1Op, hr]
    | ok c1 => simp [applyL1Op, hr, updateMaxBatchSize_ok_batches hr]
  | pause sender =>
    cases hr : pauseContract c sender with
    | error e => simp [applyL1Op, hr]
    | ok c1 => simp [applyL1Op, hr, pauseContract_ok_batches hr]
  | unpause sender =>
    cases hr : unpauseContract c sender with
    | error e => simp [applyL1Op, hr]
    | ok c1 => simp [applyL1Op, hr, unpauseContract_ok_batches hr]

/-- Flag preservation over a whole transaction sequence. -/
theorem applyL1Ops_flags_mono : ∀ (ops : List L1Op) (c : RollupContract) (idx : Nat),
    idx < c.batches.length →
    idx < (applyL1Ops c ops).batches.length ∧
    ((c.batches.getD idx default).isChallenged = true →
      ((applyL1Ops c ops).batches.getD idx default).isChallenged = true) ∧
    ((c.batches.getD idx default).isFinalized = true →
      ((applyL1Ops c ops).batches.getD idx default).isFinalized = true) := by
  intro ops
  induction ops with
  | nil =>
    intro c idx h
    exact ⟨h, fun hc => hc, fun hf => hf⟩
  | cons op rest ih =>
    intro c idx h
    have hstep := applyL1Op_flags_mono c op idx h
    have hrest := ih (applyL1Op c op) idx hstep.1
    exact ⟨hrest.1, fun hc => hrest.2.1 (hstep.2.1 hc), fun hf => hrest.2.2 (hstep.2.2 hf)⟩

/-- `finalizeBatch` always reverts on an already-finalized batch. -/
theorem finalizeBatch_err_of_finalized (c : RollupContract) (now idx : Nat)
    (h : idx < c.batches.length)
    (hf : (c.batches.getD idx default).isFinalized = true) :
    ∃ e, finalizeBatch c now idx = .error e := by
  simp only [finalizeBatch]
  rw [if_pos h]
  by_cases hp : c.paused = true
  · rw [if_pos hp]
    exact ⟨_, rfl⟩
  · rw [if_neg hp, if_pos hf]
    exact ⟨_, rfl⟩

/-- Once a stored batch is finalized, `finalizeBatch` on its index fails
after every further transaction sequence. -/
theorem finalizeBatch_err_forever (c0 : RollupContract) (idx : Nat)
    (h : idx < c0.batches.length)
    (hf : (c0.batches.getD idx default).isFinalized = true)
    (ops : List L1Op) (now2 : Nat) :
    ∃ e, finalizeBatch (applyL1Ops c0 ops) now2 idx = .error e := by
  have hm := applyL1Ops_flags_mono ops c0 idx h
  exact finalizeBatch_err_of_finalized _ now2 idx hm.1 (hm.2.2 hf)

/-- A batch whose `isChallenged` flag is set never has status
`finalized`. -/
theorem status_ne_finalized_of_challenged (b : L1Batch) (h : b.isChallenged = true) :
    b.status ≠ .finalized := by
  cases hf : b.isFinalized <;> simp [L1Batch.status, h, hf]

/-- C2: for every stored batch, `finalizeBatch` fails while
`now ≤ submittedAt + challengePeriod`; once the window has elapsed it
succeeds on an unchallenged (not yet finalized, unpaused) batch, marking
its status `finalized` and making its state root canonical, and every
repeated call — after any further sequence of contract transactions —
fails; finalizing a challenged batch instead marks it `reverted` without
touching the canonical root, and a batch that was ever challenged never
has status `finalized` in any reachable state. -/
theorem finalizeBatch_spec :
    ∀ (c : RollupContract) (idx : Nat), idx < c.batches.length →
      (∀ now, now ≤ (c.batches.getD idx default).timestamp + c.challengePeriod →
        ∃ e, finalizeBatch c now idx = .error e) ∧
      (∀ now, c.paused = false →
        (c.batches.getD idx default).isChallenged = false →
        (c.batches.getD idx default).isFinalized = false →
        (c.batches.getD idx default).timestamp + c.challengePeriod < now →
        ∃ c', finalizeBatch c now idx = .ok c' ∧
          (c'.batches.getD idx default).status = .finalized ∧
          c'.currentStateRoot = (c.batches.getD idx default).stateRoot ∧
          (∀ (ops : List L1Op) (now2 : Nat),
            ∃ e, finalizeBatch (applyL1Ops c' ops) now2 idx = .error e)) ∧
      ((c.batches.getD idx default).isChallenged = true →
        (∀ now c'', finalizeBatch c now idx = .ok c'' →
          (c''.batches.getD idx default).status = .reverted ∧
          c''.currentStateRoot = c.currentStateRoot) ∧
        (∀ ops : List L1Op,
          ((applyL1Ops c ops).batches.getD idx default).status ≠ .finalized)) := by
  intro c idx h
  refine ⟨?_, ?_, ?_⟩
  · intro now hnow
    simp only [finalizeBatch]
    rw [if_pos h]
    by_cases hp : c.paused = true
    · rw [if_pos hp]
      exact ⟨_, rfl⟩
    · rw [if_neg hp]
      by_cases hf : (c.batches.getD idx default).isFinalized = true
      · rw [if_pos hf]
        exact ⟨_, rfl⟩
      · have ht : ¬ (c.batches.getD idx default).timestamp + c.challengePeriod < now := by
          omega
        rw [if_neg hf, if_neg ht]
        exact ⟨_, rfl⟩
  · intro now hp hchal hfin ht
    have hp' : ¬ c.paused = true := by rw [hp]; simp
    have hfin' : ¬ (c.batches.getD idx default).isFinalized = true := by rw [hfin]; simp
    have hchal' : ¬ (c.batches.getD idx default).isChallenged = true := by rw [hchal]; simp
    have hv : ((c.batches.set idx
        { c.batches.getD idx default with isFinalized := true }).getD idx default) =
        { c.batches.getD idx default with isFinalized := true } := by
      rw [List.getD_eq_getElem _ _ (by simpa using h), List.getElem_set_self]
    refine ⟨{ c with
        currentStateRoot := (c.batches.getD idx default).stateRoot,
        batches := (c.batches.set idx
          { c.batches.getD idx default with isFinalized := true }) }, ?_, ?_, ?_, ?_⟩
    · simp only [finalizeBatch]
      rw [if_pos h, if_neg hp', if_neg hfin', if_pos ht, if_neg hchal']
    · rw [show ({ c with
          currentStateRoot := (c.batches.getD idx default).stateRoot,
          batches := (c.batches.set idx
            { c.batches.getD idx default with isFinalized := true }) } :
            RollupContract).batches = (c.batches.set idx
            { c.batches.getD idx default with isFinalized := true }) from rfl, hv]
      simp only [L1Batch.status, if_true]
      rw [if_neg (by simpa using hchal')]
    · rfl
    · intro ops now2
      refine finalizeBatch_err_forever _ idx (by simpa using h) ?_ ops now2
      rw [show ({ c with
          currentStateRoot := (c.batches.getD idx default).stateRoot,
          batches := (c.batches.set idx
            { c.batches.getD idx default with isFinalized := true }) } :
            RollupContract).batches = (c.batches.set idx
            { c.batches.getD idx default with isFinalized := true }) from rfl, hv]
  · intro hchal
    constructor
    · intro now c'' hok
      obtain ⟨_, _, _, hb, hroot⟩ := finalizeBatch_ok_shape hok
      have hv : ((c.batches.set idx
          { c.batches.getD idx default with isFinalized := true }).getD idx default) =
          { c.batches.getD idx default with isFinalized := true } := by
        rw [List.getD_eq_getElem _ _ (by simpa using h), List.getElem_set_self]
      constructor
      · rw [hb, hv]
        simp only [L1Batch.status, if_true]
        rw [if_pos hchal]
      · rw [hroot, if_pos hchal]
    · intro ops
      have hm := applyL1Ops_flags_mono ops c idx h
      exact status_ne_finalized_of_challenged _ (hm.2.1 hchal)

/-- A concrete one-batch contract state for the C2 witness: batch 0 was
submitted at time 0, the challenge period is 10, nothing is challenged. -/
def cEx : RollupContract :=
  { batches := [⟨1, 1, 0, "seq", false, false⟩], validators := ["v"],
    validatorStakes := [("v", MIN_STAKE)], currentStateRoot := 0, sequencer := "seq",
    challengePeriod := 10, minimumStake := MIN_STAKE, maxBatchSize := 10,
    paused := false, owner := "own" }

/-- C2 witness: on the concrete state, finalizing batch 0 at time 5 (inside
the window) fails, and at time 11 it succeeds with status `finalized` and
the canonical root advanced. -/
theorem finalizeBatch_spec_witness :
    (∃ e, finalizeBatch cEx 5 0 = .error e) ∧
    (∃ c', finalizeBatch cEx 11 0 = .ok c' ∧
      (c'.batches.getD 0 default).status = .finalized ∧ c'.currentStateRoot = 1) := by
  have h := finalizeBatch_spec cEx 0 (by decide)
  refine ⟨h.1 5 (by decide), ?_⟩
  obtain ⟨c', hok, hst, hroot, _⟩ := h.2.1 11 (by decide) (by decide) (by decide) (by decide)
  exact ⟨c', hok, hst, by rw [hroot]; rfl⟩

/-! ## Claim C7 -/

/-- Looking up a key just set finds the new value. -/
theorem lookupKey_setKey_self {α : Type} (k : String) (v : α) :
    ∀ l : List (String × α), lookupKey k (setKey k v l) = some v := by
  intro l
  induction l with
  | nil => simp [setKey, lookupKey]
  | cons x xs ih =>
    by_cases hk : x.1 = k
    · simp [setKey, lookupKey, hk]
    · simp only [setKey, if_neg hk, lookupKey, ih]

/-- C7: `withdraw(user, token, amount)` rejects an amount below
`minDeposit` (`parseEther('0.001')`); otherwise, called at time `t0`, it
stores a withdrawal with `unlockTime = t0 + 604800 s` (the fixed 7-day
`withdrawalDelay`, in ms), computes its proof, and advances the record's
status to `burned`. -/
theorem withdraw_spec :
    ∀ (br : Bridge) (user token : String) (amt : Int) (wid : String) (now : Nat)
      (l2 : String),
      (amt < minDepositAmount →
        withdraw br user token amt wid now l2 = .error "Withdrawal amount too small") ∧
      (minDepositAmount ≤ amt →
        ∃ br', withdraw br user token amt wid now l2 = .ok br' ∧
          lookupKey wid br'.withdrawals = some
            { id := wid, userAddress := user, tokenAddress := token, amount := amt,
              status := "burned", timestamp := now,
              unlockTime := now + 604800 * 1000,
              layer2TxHash := some l2, layer1TxHash := none,
              proof := some (.keccakWithdrawProof wid user token amt now) } ∧
          withdrawalDelay = 604800) := by
  intro br user token amt wid now l2
  constructor
  · intro hlt
    simp only [withdraw]
    rw [if_pos hlt]
  · intro hge
    have hne : ¬ amt < minDepositAmount := not_lt.mpr hge
    simp only [withdraw]
    rw [if_neg hne]
    refine ⟨_, rfl, ?_, by norm_num [withdrawalDelay]⟩
    simp only [burnTokensOnLayer2, addBridgeEvent, generateWithdrawalProof]
    rw [lookupKey_setKey_self]
    norm_num [withdrawalDelay]

/-- C7 witness: `withdraw(amount = 5 ether)` on the empty bridge at
`t0 = 1000` ms yields a burned record unlocking at `t0 + 604800000` ms. -/
theorem withdraw_spec_witness :
    ∃ br', withdraw ⟨[], []⟩ "u" "t" (5 * 10 ^ 18) "w1" 1000 "l2" = .ok br' ∧
      ∃ w, lookupKey "w1" br'.withdrawals = some w ∧
        w.unlockTime = 1000 + 604800000 ∧ w.status = "burned" := by
  obtain ⟨br', hok, hw, _⟩ :=
    (withdraw_spec ⟨[], []⟩ "u" "t" (5 * 10 ^ 18) "w1" 1000 "l2").2 (by decide)
  exact ⟨br', hok, _, hw, by norm_num, rfl⟩

/-! ## Claim C6 -/

/-- The state a caller is left with after `completeWithdrawal`: the new
state on success, the old one when the call threw. -/
def tryCompleteWithdrawal (br : Bridge) (wid : String) (now : Nat) (l1tx : String) :
    Bridge :=
  match completeWithdrawal br wid now l1tx with
  | .ok br' => br'
  | .error _ => br

/-- C6: `completeWithdrawal(id)` fails with a distinct error for each of —
unknown id; status ≠ `burned`; `now < unlockTime`; proof re-verification
failure — leaving the state (hence the withdrawal record) unchanged; when
the record is `burned`, unlocked and its proof re-verifies, it succeeds,
marking the record `completed` with the settlement reference, and a
second call on the same id fails. -/
theorem completeWithdrawal_spec :
    ∀ (br : Bridge) (wid : String) (now : Nat) (l1 : String),
      (lookupKey wid br.withdrawals = none →
        completeWithdrawal br wid now l1 = .error "Withdrawal not found" ∧
        tryCompleteWithdrawal br wid now l1 = br) ∧
      (∀ w, lookupKey wid br.withdrawals = some w →
        (w.status ≠ "burned" →
          completeWithdrawal br wid now l1 = .error "Withdrawal not ready for completion" ∧
          tryCompleteWithdrawal br wid now l1 = br) ∧
        (w.status = "burned" → now < w.unlockTime →
          completeWithdrawal br wid now l1 = .error "Withdrawal still in delay period" ∧
          tryCompleteWithdrawal br wid now l1 = br) ∧
        (w.status = "burned" → ¬ now < w.unlockTime →
          verifyWithdrawalProof w.proof = false →
          completeWithdrawal br wid now l1 = .error "Invalid withdrawal proof" ∧
          tryCompleteWithdrawal br wid now l1 = br) ∧
        (w.status = "burned" → ¬ now < w.unlockTime →
          verifyWithdrawalProof w.proof = true →
          ∃ br', completeWithdrawal br wid now l1 = .ok br' ∧
            lookupKey wid br'.withdrawals =
              some { w with layer1TxHash := some l1, status := "completed" } ∧
            (∀ (now2 : Nat) (l1b : String), completeWithdrawal br' wid now2 l1b =
              .error "Withdrawal not ready for completion"))) := by
  intro br wid now l1
  constructor
  · intro hl
    have h1 : completeWithdrawal br wid now l1 = .error "Withdrawal not found" := by
      simp only [completeWithdrawal, hl]
    exact ⟨h1, by simp only [tryCompleteWithdrawal, h1]⟩
  · intro w hl
    refine ⟨?_, ?_, ?_, ?_⟩
    · intro hs
      have h1 : completeWithdrawal br wid now l1 =
          .error "Withdrawal not ready for completion" := by
        simp only [completeWithdrawal, hl]
        rw [if_pos hs]
      exact ⟨h1, by simp only [tryCompleteWithdrawal, h1]⟩
    · intro hs ht
      have h1 : completeWithdrawal br wid now l1 =
          .error "Withdrawal still in delay period" := by
        simp only [completeWithdrawal, hl]
        rw [if_neg (by simp [hs]), if_pos ht]
      exact ⟨h1, by simp only [tryCompleteWithdrawal, h1]⟩
    · intro hs ht hv
      have h1 : completeWithdrawal br wid now l1 = .error "Invalid withdrawal proof" := by
        simp only [completeWithdrawal, hl]
        rw [if_neg (by simp [hs]), if_neg ht, if_pos (by simp [hv])]
      exact ⟨h1, by simp only [tryCompleteWithdrawal, h1]⟩
    · intro hs ht hv
      simp only [completeWithdrawal, hl]
      rw [if_neg (by simp [hs]), if_neg ht, if_neg (by simp [hv])]
      refine ⟨_, rfl, ?_, ?_⟩
      · simp only [addBridgeEvent]
        rw [lookupKey_setKey_self]
      · intro now2 l1b
        simp only [completeWithdrawal, addBridgeEvent, lookupKey_setKey_self]
        rw [if_pos (by decide)]

/-- A concrete burned withdrawal for the C6 witness: created at `t = 0`,
unlocking at `604800000` ms, with its generated proof attached. -/
def wEx : Withdrawal :=
  { id := "w1", userAddress := "u", tokenAddress := "t", amount := 10 ^ 16,
    status := "burned", timestamp := 0, unlockTime := 604800000,
    layer2TxHash := some "l2", layer1TxHash := none,
    proof := some (.keccakWithdrawProof "w1" "u" "t" (10 ^ 16) 0) }

/-- C6 witness: completing the concrete burned withdrawal before its
unlock time fails with the delay error, and after the unlock time it
succeeds. -/
theorem completeWithdrawal_spec_witness :
    completeWithdrawal ⟨[("w1", wEx)], []⟩ "w1" 100 "x" =
      .error "Withdrawal still in delay period" ∧
    ∃ br', completeWithdrawal ⟨[("w1", wEx)], []⟩ "w1" 700000000 "x" = .ok br' := by
  constructor
  · exact ((completeWithdrawal_spec ⟨[("w1", wEx)], []⟩ "w1" 100 "x").2 wEx
      (by decide)).2.1 rfl (by decide) |>.1
  · obtain ⟨br', hok, _, _⟩ := ((completeWithdrawal_spec ⟨[("w1", wEx)], []⟩ "w1"
      700000000 "x").2 wEx (by decide)).2.2.2 rfl (by decide) (by decide)
    exact ⟨br', hok⟩

end DefiRain
